import Mathlib

/-
Verification of the SmartForm Builder submission pipeline
(src/main.py `submit_form`, `append_submission_to_sheet`,
`upload_file_to_drive`; src/schemas.py `FormField`, `Form`, `Submission`).

The submission handler is embedded shallowly: Python dicts become ordered
association lists (insertion order preserved, as CPython dicts do), the
external collaborators (blob storage, tabular sink, the clock) become an
explicit environment, and the handler becomes a pure function from a form,
a store state, a clock state and a payload to an outcome recording the
HTTP result, the new store, the row handed to the tabular sink (when the
append succeeded) and the trace of uploads performed.
-/

namespace SmartForm

/-- A value of the canonical attribute map: a scalar string, or an ordered
sequence of strings as produced for repeated multipart keys (checkbox
groups). -/
inductive Value where
  | str (s : String)
  | vlist (l : List String)
deriving DecidableEq

/-- A Python dict with string keys, as an ordered association list
(CPython dicts preserve insertion order). -/
abbrev Dict (α : Type) := List (String × α)

abbrev AttrMap := Dict Value

/-- Python `m.get(k)`: first (and only, by construction) binding of `k`. -/
def dget {α : Type} : Dict α → String → Option α
  | [], _ => none
  | (ka, va) :: rest, k => if ka = k then some va else dget rest k

/-- Python `m[k] = v`: overwrite in place if the key is present, otherwise
append the new binding at the end. -/
def dset {α : Type} : Dict α → String → α → Dict α
  | [], k, v => [(k, v)]
  | (ka, va) :: rest, k, v =>
      if ka = k then (k, v) :: rest else (ka, va) :: dset rest k v

def dkeys {α : Type} (m : Dict α) : List String := m.map Prod.fst

/-- Python `\x7b**a, **b\x7d`: start from `a`, then write every binding of
`b` over it, in order. -/
def dmerge {α : Type} (a b : Dict α) : Dict α :=
  b.foldl (fun m p => dset m p.1 p.2) a

/-- One field definition of a form, with the attributes `submit_form`
actually reads from the stored field dicts: identifier, declared type,
optional label, required flag (src/schemas.py `FormField`). -/
structure FormField where
  id : String
  ftype : String
  label : Option String
  required : Bool
deriving DecidableEq

/-- The slice of a stored Form document that `submit_form` uses: its
persistence identity, its ordered field list, and its mirror sheet tab. -/
structure FormModel where
  form_id : String
  fields : List FormField
  sheet_name : String
deriving DecidableEq

/-- One entry of a multipart body, in arrival order. A file attachment
carries its filename; `""` stands for an empty or absent filename. -/
inductive Part where
  | text (k v : String)
  | file (k filename : String)
deriving DecidableEq

/-- The two request-body shapes `submit_form` accepts: a JSON body whose
`"data"` member is taken verbatim, or a multipart body as an ordered
entry list. -/
inductive Payload where
  | json (data : AttrMap)
  | multipart (parts : List Part)
deriving DecidableEq

/-- The external collaborators, as an oracle environment:
`uploadLink k fn` is the link the blob-storage collaborator returns for a
file uploaded from field key `k` with filename `fn`
(`upload_file_to_drive`); `mirrorOk` says whether the tabular-sink append
succeeds; `now i` is the ISO-8601 rendering of the `i`-th clock reading
(`datetime.utcnow().isoformat()`). -/
structure Env where
  uploadLink : String → String → String
  mirrorOk : Bool
  now : Nat → String

/-- State of the multipart loop of `submit_form`: the canonical attribute
map `data`, the file-reference map `file_links`, plus the trace of uploads
performed so far (key, filename), in order. -/
structure NormState where
  data : AttrMap
  file_links : Dict String
  uploads : List (String × String)
deriving DecidableEq

/-- One iteration of the `for k, v in form.multi_items()` loop of
`submit_form` (src/main.py lines 296-309): a file entry with a non-empty
filename is uploaded at once and its link recorded under its key; a file
entry with an empty filename is skipped; a text entry is folded into
`data` (fresh key stores the scalar, a scalar becomes a two-element list,
a list is appended to). -/
def normStep (env : Env) (st : NormState) : Part → NormState
  | Part.file k fn =>
      if fn = "" then st
      else
        { st with
            file_links := dset st.file_links k (env.uploadLink k fn),
            uploads := st.uploads ++ [(k, fn)] }
  | Part.text k v =>
      match dget st.data k with
      | some (Value.vlist l) => { st with data := dset st.data k (Value.vlist (l ++ [v])) }
      | some (Value.str s) => { st with data := dset st.data k (Value.vlist [s, v]) }
      | none => { st with data := st.data ++ [(k, Value.str v)] }

/-- The whole multipart loop, over the entries in arrival order. -/
def normalizeMultipart (env : Env) (parts : List Part) : NormState :=
  parts.foldl (normStep env) ⟨[], [], []⟩

/-- Payload normalization: a JSON body's `"data"` member is taken
verbatim (no files possible); a multipart body goes through the loop. -/
def normalizePayload (env : Env) : Payload → NormState
  | Payload.json d => ⟨d, [], []⟩
  | Payload.multipart parts => normalizeMultipart env parts

/-- Python truthiness test `not data.get(fid)` on an attribute-map entry:
missing, empty string and empty list are falsy. -/
def isFalsy : Option Value → Bool
  | none => true
  | some (Value.str s) => s = ""
  | some (Value.vlist l) => l.isEmpty

/-- Python `field.get("label") or fid`: the label unless it is absent or
empty, else the identifier. -/
def labelOrId (label : Option String) (fid : String) : String :=
  match label with
  | some l => if l = "" then fid else l
  | none => fid

/-- The dict comprehension `\x7bf.get("id"): f for f in fields\x7d`
(src/main.py line 312): key order is first occurrence, value is the last
field bearing that identifier. -/
def field_map (fields : List FormField) : Dict FormField :=
  fields.foldl (fun m f => dset m f.id f) []

/-- The required-validation loop (src/main.py lines 313-315): the first
entry of `field_map` that is required and whose attribute-map entry is
falsy yields the HTTP 400 detail string; `none` means validation passes. -/
def validate_required (fields : List FormField) (data : AttrMap) : Option String :=
  (field_map fields).findSome? fun p =>
    if p.2.required && isFalsy (dget data p.1) then
      some ("Missing required field: " ++ labelOrId p.2.label p.1)
    else none

/-- A persisted Submission record (src/schemas.py `Submission`).
Modelled from the spec: `create_document` (the Submission Store, not under
src/) assigns a fresh unique identity and a server-side creation
timestamp at commit; here the identity is the store length and the
timestamp is the clock reading at commit. -/
structure Submission where
  form_id : String
  data : AttrMap
  file_links : Dict String
  created_at : String
  sub_id : Nat
deriving DecidableEq

/-- Outcome of the submit endpoint. -/
inductive SubmitResult where
  | requiredFieldMissing (detail : String)
  | ok (sub_id : Nat)
deriving DecidableEq

/-- Rendering of one sheet cell (src/main.py lines 154-158): a sequence is
comma-joined, a scalar is passed through, a missing entry yields the empty
cell. -/
def renderCell : Option Value → String
  | none => ""
  | some (Value.str s) => s
  | some (Value.vlist l) => String.intercalate ", " l

/-- The row built by `append_submission_to_sheet` (src/main.py lines
152-158): a fresh timestamp, then one cell per field in declared order. -/
def buildRow (ts : String) (fields : List FormField) (combined : AttrMap) : List String :=
  ts :: fields.map (fun f => renderCell (dget combined f.id))

/-- Everything `submit_form` produces and changes: the HTTP-level result,
the submission store after the call, the row handed to the tabular sink
(`none` when the append failed or was never reached), the uploads
performed, and the clock afterwards. -/
structure SubmitOutcome where
  result : SubmitResult
  store : List Submission
  row : Option (List String)
  uploads : List (String × String)
  clock : Nat
deriving DecidableEq

/-- The submit endpoint (src/main.py lines 279-330) after the form has
been found: normalize the payload (uploading files as they are met),
validate required fields, commit the Submission, then best-effort mirror
a row whose first cell is a fresh clock reading; a mirror failure is
swallowed. -/
def submit_form (env : Env) (form : FormModel) (store : List Submission)
    (clock : Nat) (payload : Payload) : SubmitOutcome :=
  let norm := normalizePayload env payload
  match validate_required form.fields norm.data with
  | some d =>
      { result := SubmitResult.requiredFieldMissing d, store := store,
        row := none, uploads := norm.uploads, clock := clock }
  | none =>
      let sub : Submission :=
        { form_id := form.form_id, data := norm.data,
          file_links := norm.file_links, created_at := env.now clock,
          sub_id := store.length }
      let combined :=
        dmerge norm.data (norm.file_links.map (fun p => (p.1, Value.str p.2)))
      let row := buildRow (env.now (clock + 1)) form.fields combined
      { result := SubmitResult.ok sub.sub_id, store := store ++ [sub],
        row := if env.mirrorOk then some row else none,
        uploads := norm.uploads, clock := clock + 2 }

/-- The text-entry keys of a payload: JSON keys verbatim, multipart
plain-text entry keys in arrival order. -/
def payloadKeys : Payload → List String
  | Payload.json d => dkeys d
  | Payload.multipart parts =>
      parts.filterMap fun p =>
        match p with
        | Part.text k _ => some k
        | Part.file _ _ => none

/-! ### Dictionary lemmas -/

theorem dget_dset {α : Type} (m : Dict α) (k kq : String) (v : α) :
    dget (dset m k v) kq = if k = kq then some v else dget m kq := by
  induction m with
  | nil =>
      by_cases h : k = kq <;> simp [dset, dget, h]
  | cons p rest ih =>
      obtain ⟨ka, va⟩ := p
      by_cases h1 : ka = k
      · subst h1
        by_cases h2 : ka = kq <;> simp [dset, dget, h2]
      · by_cases h2 : ka = kq
        · subst h2
          have hk : ¬ k = ka := fun h => h1 h.symm
          simp [dset, dget, h1, hk]
        · simp [dset, dget, h1, h2, ih]

theorem mem_of_mem_dset {α : Type} (m : Dict α) (k kq : String) (v vq : α)
    (h : (kq, vq) ∈ dset m k v) : (kq, vq) ∈ m ∨ (kq = k ∧ vq = v) := by
  induction m with
  | nil =>
      simp [dset] at h
      exact Or.inr h
  | cons p rest ih =>
      obtain ⟨ka, va⟩ := p
      by_cases h1 : ka = k
      · simp [dset, h1] at h
        rcases h with h | h
        · exact Or.inr h
        · exact Or.inl (List.mem_cons_of_mem _ h)
      · simp [dset, h1] at h
        rcases h with h | h
        · exact Or.inl (by simp [h])
        · rcases ih h with h2 | h2
          · exact Or.inl (List.mem_cons_of_mem _ h2)
          · exact Or.inr h2

theorem dget_isSome_iff {α : Type} (m : Dict α) (k : String) :
    (dget m k).isSome = true ↔ k ∈ dkeys m := by
  induction m with
  | nil => simp [dget, dkeys]
  | cons p rest ih =>
      obtain ⟨ka, va⟩ := p
      by_cases h1 : ka = k
      · subst h1
        simp [dget, dkeys]
      · have h2 : ¬ k = ka := fun hh => h1 hh.symm
        simp [dget, dkeys, h1, h2, ih]

theorem mem_dkeys_dset {α : Type} (m : Dict α) (k kq : String) (v : α) :
    kq ∈ dkeys (dset m k v) ↔ kq ∈ dkeys m ∨ kq = k := by
  rw [← dget_isSome_iff, dget_dset]
  by_cases h : k = kq
  · subst h
    simp [dget_isSome_iff]
  · have h2 : ¬ kq = k := fun hh => h hh.symm
    simp [h, h2, dget_isSome_iff]

theorem dget_eq_none_iff {α : Type} (m : Dict α) (k : String) :
    dget m k = none ↔ k ∉ dkeys m := by
  rw [← dget_isSome_iff]
  cases dget m k <;> simp

theorem dset_eq_append {α : Type} (m : Dict α) (k : String) (v : α)
    (h : k ∉ dkeys m) : dset m k v = m ++ [(k, v)] := by
  induction m with
  | nil => simp [dset]
  | cons p rest ih =>
      obtain ⟨ka, va⟩ := p
      rw [show dkeys ((ka, va) :: rest) = ka :: dkeys rest from rfl,
        List.mem_cons] at h
      push_neg at h
      have h1 : ¬ ka = k := fun hh => h.1 hh.symm
      simp [dset, h1, ih h.2]

theorem dkeys_append {α : Type} (a b : Dict α) :
    dkeys (a ++ b) = dkeys a ++ dkeys b := by
  simp [dkeys]

/-! ### findSome? lemmas -/

theorem findSome?_isSome_of_mem {α β : Type} (l : List α) (p : α → Option β)
    (a : α) (ha : a ∈ l) (hp : (p a).isSome) : ∃ b, l.findSome? p = some b := by
  induction l with
  | nil => cases ha
  | cons x rest ih =>
      rcases List.mem_cons.mp ha with h | h
      · subst h
        rcases Option.isSome_iff_exists.mp hp with ⟨b, hb⟩
        exact ⟨b, by simp [List.findSome?_cons, hb]⟩
      · cases hx : p x with
        | some b => exact ⟨b, by simp [List.findSome?_cons, hx]⟩
        | none =>
            rcases ih h with ⟨b, hb⟩
            exact ⟨b, by simp [List.findSome?_cons, hx, hb]⟩

theorem exists_of_findSome?_eq_some {α β : Type} {l : List α}
    {p : α → Option β} {b : β} (h : l.findSome? p = some b) :
    ∃ a, a ∈ l ∧ p a = some b := by
  induction l with
  | nil => simp [List.findSome?_nil] at h
  | cons x rest ih =>
      rw [List.findSome?_cons] at h
      cases hx : p x with
      | some c =>
          simp [hx] at h
          exact ⟨x, List.mem_cons_self _ _, by rw [hx, h]⟩
      | none =>
          simp [hx] at h
          rcases ih h with ⟨a, ha, hpa⟩
          exact ⟨a, List.mem_cons_of_mem _ ha, hpa⟩

theorem findSome?_eq_none_of_forall {α β : Type} {l : List α}
    {p : α → Option β} (h : ∀ a ∈ l, p a = none) : l.findSome? p = none := by
  induction l with
  | nil => simp [List.findSome?_nil]
  | cons x rest ih =>
      rw [List.findSome?_cons, h x (List.mem_cons_self _ _)]
      exact ih fun a ha => h a (List.mem_cons_of_mem _ ha)

/-! ### field_map lemmas -/

theorem mem_foldl_dset_field (fields : List FormField) (m : Dict FormField)
    (k : String) (g : FormField)
    (h : (k, g) ∈ fields.foldl (fun m f => dset m f.id f) m) :
    (k, g) ∈ m ∨ (g ∈ fields ∧ k = g.id) := by
  induction fields generalizing m with
  | nil => exact Or.inl h
  | cons f rest ih =>
      rw [List.foldl_cons] at h
      rcases ih (dset m f.id f) h with h2 | h2
      · rcases mem_of_mem_dset m f.id k f g h2 with h3 | h3
        · exact Or.inl h3
        · exact Or.inr ⟨by simp [h3.2], by rw [h3.1, h3.2]⟩
      · exact Or.inr ⟨List.mem_cons_of_mem _ h2.1, h2.2⟩

theorem mem_field_map {fields : List FormField} {k : String} {g : FormField}
    (h : (k, g) ∈ field_map fields) : g ∈ fields ∧ k = g.id := by
  rcases mem_foldl_dset_field fields [] k g h with h2 | h2
  · cases h2
  · exact h2

theorem foldl_dset_eq_append (fields : List FormField) (m : Dict FormField)
    (hm : ∀ f ∈ fields, f.id ∉ dkeys m)
    (hnd : (fields.map FormField.id).Nodup) :
    fields.foldl (fun m f => dset m f.id f) m
      = m ++ fields.map (fun f => (f.id, f)) := by
  induction fields generalizing m with
  | nil => simp
  | cons f rest ih =>
      rw [List.map_cons, List.nodup_cons] at hnd
      have hstep : dset m f.id f = m ++ [(f.id, f)] :=
        dset_eq_append m f.id f (hm f (List.mem_cons_self _ _))
      have hrest : ∀ g ∈ rest, g.id ∉ dkeys (m ++ [(f.id, f)]) := by
        intro g hg
        rw [dkeys_append, List.mem_append]
        rintro (hc | hc)
        · exact hm g (List.mem_cons_of_mem _ hg) hc
        · have he : g.id = f.id := by simpa [dkeys] using hc
          exact hnd.1 (he ▸ List.mem_map_of_mem FormField.id hg)
      rw [List.foldl_cons, hstep, ih (m ++ [(f.id, f)]) hrest hnd.2]
      simp

theorem field_map_eq_map {fields : List FormField}
    (hnd : (fields.map FormField.id).Nodup) :
    field_map fields = fields.map (fun f => (f.id, f)) := by
  have h := foldl_dset_eq_append fields [] (by simp [dkeys]) hnd
  simpa [field_map] using h

/-! ### Normalization lemmas -/

theorem normStep_text_links (env : Env) (st : NormState) (k v : String) :
    (normStep env st (Part.text k v)).file_links = st.file_links := by
  rcases hd : dget st.data k with _ | val
  · simp [normStep, hd]
  · cases val <;> simp [normStep, hd]

theorem normStep_text_uploads (env : Env) (st : NormState) (k v : String) :
    (normStep env st (Part.text k v)).uploads = st.uploads := by
  rcases hd : dget st.data k with _ | val
  · simp [normStep, hd]
  · cases val <;> simp [normStep, hd]

theorem normStep_file_data (env : Env) (st : NormState) (k fn : String) :
    (normStep env st (Part.file k fn)).data = st.data := by
  by_cases hfn : fn = "" <;> simp [normStep, hfn]

theorem normStep_data_keys (env : Env) (st : NormState) (p : Part) (kq : String) :
    kq ∈ dkeys (normStep env st p).data ↔
      kq ∈ dkeys st.data ∨ ∃ v, p = Part.text kq v := by
  cases p with
  | text k v =>
      have hiff : kq ∈ dkeys (normStep env st (Part.text k v)).data ↔
          kq ∈ dkeys st.data ∨ kq = k := by
        rcases hd : dget st.data k with _ | val
        · rw [show (normStep env st (Part.text k v)).data
              = st.data ++ [(k, Value.str v)] by simp [normStep, hd]]
          rw [dkeys_append, List.mem_append]
          simp [dkeys]
        · cases val with
          | str s =>
              rw [show (normStep env st (Part.text k v)).data
                  = dset st.data k (Value.vlist [s, v]) by simp [normStep, hd]]
              exact mem_dkeys_dset _ _ _ _
          | vlist l =>
              rw [show (normStep env st (Part.text k v)).data
                  = dset st.data k (Value.vlist (l ++ [v])) by simp [normStep, hd]]
              exact mem_dkeys_dset _ _ _ _
      rw [hiff]
      constructor
      · rintro (h | h)
        · exact Or.inl h
        · exact Or.inr ⟨v, by rw [h]⟩
      · rintro (h | ⟨v0, he⟩)
        · exact Or.inl h
        · injection he with h1 h2
          exact Or.inr h1.symm
  | file k fn =>
      rw [normStep_file_data]
      simp

theorem normStep_links_keys (env : Env) (st : NormState) (p : Part) (kq : String) :
    kq ∈ dkeys (normStep env st p).file_links ↔
      kq ∈ dkeys st.file_links ∨ ∃ fn, fn ≠ "" ∧ p = Part.file kq fn := by
  cases p with
  | text k v =>
      rw [normStep_text_links]
      simp
  | file k fn =>
      by_cases hfn : fn = ""
      · subst hfn
        rw [show (normStep env st (Part.file k "")).file_links
            = st.file_links from rfl]
        constructor
        · exact Or.inl
        · rintro (h | ⟨fn0, hne, he⟩)
          · exact h
          · injection he with h1 h2
            exact absurd h2.symm hne
      · rw [show (normStep env st (Part.file k fn)).file_links
            = dset st.file_links k (env.uploadLink k fn) by simp [normStep, hfn]]
        rw [mem_dkeys_dset]
        constructor
        · rintro (h | h)
          · exact Or.inl h
          · exact Or.inr ⟨fn, hfn, by rw [h]⟩
        · rintro (h | ⟨fn0, hne, he⟩)
          · exact Or.inl h
          · injection he with h1 h2
            exact Or.inr h1.symm

theorem foldl_normStep_data_keys (env : Env) (parts : List Part) (st : NormState)
    (kq : String) :
    kq ∈ dkeys (parts.foldl (normStep env) st).data ↔
      kq ∈ dkeys st.data ∨ ∃ v, Part.text kq v ∈ parts := by
  induction parts generalizing st with
  | nil => simp
  | cons p rest ih =>
      rw [List.foldl_cons, ih (normStep env st p), normStep_data_keys]
      constructor
      · rintro ((h | ⟨v, hv⟩) | ⟨v, hv⟩)
        · exact Or.inl h
        · exact Or.inr ⟨v, by rw [hv]; exact List.mem_cons_self _ _⟩
        · exact Or.inr ⟨v, List.mem_cons_of_mem _ hv⟩
      · rintro (h | ⟨v, hv⟩)
        · exact Or.inl (Or.inl h)
        · rcases List.mem_cons.mp hv with h1 | h1
          · exact Or.inl (Or.inr ⟨v, h1.symm⟩)
          · exact Or.inr ⟨v, h1⟩

theorem foldl_normStep_links_keys (env : Env) (parts : List Part) (st : NormState)
    (kq : String) :
    kq ∈ dkeys (parts.foldl (normStep env) st).file_links ↔
      kq ∈ dkeys st.file_links ∨ ∃ fn, fn ≠ "" ∧ Part.file kq fn ∈ parts := by
  induction parts generalizing st with
  | nil => simp
  | cons p rest ih =>
      rw [List.foldl_cons, ih (normStep env st p), normStep_links_keys]
      constructor
      · rintro ((h | ⟨fn, hfn, hv⟩) | ⟨fn, hfn, hv⟩)
        · exact Or.inl h
        · exact Or.inr ⟨fn, hfn, by rw [hv]; exact List.mem_cons_self _ _⟩
        · exact Or.inr ⟨fn, hfn, List.mem_cons_of_mem _ hv⟩
      · rintro (h | ⟨fn, hfn, hv⟩)
        · exact Or.inl (Or.inl h)
        · rcases List.mem_cons.mp hv with h1 | h1
          · exact Or.inl (Or.inr ⟨fn, hfn, h1.symm⟩)
          · exact Or.inr ⟨fn, hfn, h1⟩

theorem foldl_normStep_links_value (env : Env) (parts : List Part)
    (st : NormState) (k url : String)
    (h : dget (parts.foldl (normStep env) st).file_links k = some url) :
    dget st.file_links k = some url ∨
      ∃ fn, fn ≠ "" ∧ Part.file k fn ∈ parts ∧ url = env.uploadLink k fn := by
  induction parts generalizing st with
  | nil => exact Or.inl h
  | cons p rest ih =>
      rw [List.foldl_cons] at h
      rcases ih (normStep env st p) h with h2 | h2
      · cases p with
        | text kx v =>
            rw [normStep_text_links] at h2
            exact Or.inl h2
        | file kx fn =>
            by_cases hfn : fn = ""
            · subst hfn
              rw [show (normStep env st (Part.file kx "")).file_links
                  = st.file_links from rfl] at h2
              exact Or.inl h2
            · rw [show (normStep env st (Part.file kx fn)).file_links
                  = dset st.file_links kx (env.uploadLink kx fn) by
                    simp [normStep, hfn],
                dget_dset] at h2
              by_cases hk : kx = k
              · subst hk
                rw [if_pos rfl] at h2
                exact Or.inr ⟨fn, hfn, List.mem_cons_self _ _,
                  (Option.some_inj.mp h2).symm⟩
              · rw [if_neg hk] at h2
                exact Or.inl h2
      · rcases h2 with ⟨fn, hfn, hmem, hurl⟩
        exact Or.inr ⟨fn, hfn, List.mem_cons_of_mem _ hmem, hurl⟩

/-! ### Validation characterization -/

theorem validate_required_def (fields : List FormField) (data : AttrMap) :
    validate_required fields data
      = (field_map fields).findSome? (fun p =>
          if p.2.required && isFalsy (dget data p.1) then
            some ("Missing required field: " ++ labelOrId p.2.label p.1)
          else none) := rfl

theorem validate_required_eq_none
    {fields : List FormField} {data : AttrMap}
    (h : ∀ f ∈ fields, f.required = true → isFalsy (dget data f.id) = false) :
    validate_required fields data = none := by
  rw [validate_required_def]
  apply findSome?_eq_none_of_forall
  rintro ⟨k, g⟩ hmem
  rcases mem_field_map hmem with ⟨hg, hk⟩
  subst hk
  have hcond : (g.required && isFalsy (dget data g.id)) = false := by
    by_cases hr : g.required = true
    · rw [hr, h g hg hr]
      rfl
    · rw [Bool.not_eq_true] at hr
      rw [hr]
      rfl
  simp [hcond]

theorem validate_required_rejects
    {fields : List FormField} {data : AttrMap} {f : FormField}
    (hnd : (fields.map FormField.id).Nodup)
    (hf : f ∈ fields) (hreq : f.required = true)
    (hmiss : isFalsy (dget data f.id) = true) :
    ∃ g, g ∈ fields ∧ g.required = true ∧ isFalsy (dget data g.id) = true ∧
      validate_required fields data
        = some ("Missing required field: " ++ labelOrId g.label g.id) := by
  have hmem : (f.id, f) ∈ field_map fields := by
    rw [field_map_eq_map hnd]
    exact List.mem_map_of_mem _ hf
  rcases findSome?_isSome_of_mem (field_map fields)
      (fun p =>
        if p.2.required && isFalsy (dget data p.1) then
          some ("Missing required field: " ++ labelOrId p.2.label p.1)
        else none)
      (f.id, f) hmem (by simp [hreq, hmiss]) with ⟨d, hd⟩
  rcases exists_of_findSome?_eq_some hd with ⟨⟨k, g⟩, hmem2, hpred⟩
  rcases mem_field_map hmem2 with ⟨hg, hk⟩
  subst hk
  by_cases hc : (g.required && isFalsy (dget data g.id)) = true
  · rw [if_pos hc] at hpred
    rcases (Bool.and_eq_true _ _).mp hc with ⟨h1, h2⟩
    refine ⟨g, hg, h1, h2, ?_⟩
    rw [validate_required_def, hd, ← Option.some_inj.mp hpred]
  · rw [if_neg hc] at hpred
    cases hpred

/-! ### submit_form unfolding -/

theorem submit_form_invalid (env : Env) (form : FormModel)
    (store : List Submission) (clock : Nat) (payload : Payload) (d : String)
    (h : validate_required form.fields (normalizePayload env payload).data
        = some d) :
    submit_form env form store clock payload =
      ⟨SubmitResult.requiredFieldMissing d, store, none,
        (normalizePayload env payload).uploads, clock⟩ := by
  simp [submit_form, h]

theorem submit_form_valid (env : Env) (form : FormModel)
    (store : List Submission) (clock : Nat) (payload : Payload)
    (h : validate_required form.fields (normalizePayload env payload).data
        = none) :
    submit_form env form store clock payload =
      { result := SubmitResult.ok store.length,
        store := store ++
          [⟨form.form_id, (normalizePayload env payload).data,
            (normalizePayload env payload).file_links, env.now clock,
            store.length⟩],
        row := if env.mirrorOk then
            some (buildRow (env.now (clock + 1)) form.fields
              (dmerge (normalizePayload env payload).data
                ((normalizePayload env payload).file_links.map
                  (fun p => (p.1, Value.str p.2)))))
          else none,
        uploads := (normalizePayload env payload).uploads,
        clock := clock + 2 } := by
  simp [submit_form, h]

/-! ### Concrete inputs used to exercise the theorems -/

/-- A concrete collaborator environment: deterministic upload links, a
working tabular sink, and a clock whose successive readings differ. -/
def envW : Env :=
  { uploadLink := fun k fn => "https://drive.example/" ++ k ++ "/" ++ fn,
    mirrorOk := true,
    now := fun i => "2024-01-01T00:00:0" ++ toString i }

def fieldName : FormField := ⟨"name", "text", some "Name", true⟩

def fieldGuests : FormField := ⟨"guests", "number", some "Guests", false⟩

/-- The RSVP form of the spec's scenario 7. -/
def formW : FormModel := ⟨"form1", [fieldName, fieldGuests], "RSVP-1"⟩

/-- A form with a single optional file field. -/
def formOpt : FormModel :=
  ⟨"form2", [⟨"resume", "file", some "Resume", false⟩], "Jobs-1"⟩

theorem get?_map_eq {α β : Type} (g : α → β) (l : List α) (i : Nat) :
    (l.map g).get? i = (l.get? i).map g := by
  induction l generalizing i with
  | nil => cases i <;> rfl
  | cons a t ih =>
      cases i with
      | zero => rfl
      | succ n => exact ih n

/-! ### Claims -/

/-- C1: for every form (with, per the data model, unique field
identifiers) and every submitted attribute map, if some field marked
required has a missing or empty/falsy entry, then submit rejects with a
RequiredFieldMissing error naming a required field whose entry is
missing/falsy — its label, or its identifier if no label — and the
submission store is unchanged: no Submission record is created. -/
theorem C1_required_field_missing_rejected
    (env : Env) (form : FormModel) (store : List Submission) (clock : Nat)
    (payload : Payload) (f : FormField)
    (hnd : (form.fields.map FormField.id).Nodup)
    (hf : f ∈ form.fields) (hreq : f.required = true)
    (hmiss : isFalsy (dget (normalizePayload env payload).data f.id) = true) :
    ∃ g, g ∈ form.fields ∧ g.required = true ∧
      isFalsy (dget (normalizePayload env payload).data g.id) = true ∧
      (submit_form env form store clock payload).result
        = SubmitResult.requiredFieldMissing
            ("Missing required field: " ++ labelOrId g.label g.id) ∧
      (submit_form env form store clock payload).store = store := by
  rcases validate_required_rejects hnd hf hreq hmiss with ⟨g, hg, h1, h2, h3⟩
  refine ⟨g, hg, h1, h2, ?_, ?_⟩
  · rw [submit_form_invalid env form store clock payload _ h3]
  · rw [submit_form_invalid env form store clock payload _ h3]

/-- C1 witness: submitting only `guests` to the RSVP form (which requires
`name`) is rejected naming `Name`, and the store stays empty. -/
theorem C1_required_field_missing_rejected_witness :
    ∃ g, g ∈ formW.fields ∧ g.required = true ∧
      isFalsy (dget (normalizePayload envW
        (Payload.json [("guests", Value.str "2")])).data g.id) = true ∧
      (submit_form envW formW [] 0
          (Payload.json [("guests", Value.str "2")])).result
        = SubmitResult.requiredFieldMissing
            ("Missing required field: " ++ labelOrId g.label g.id) ∧
      (submit_form envW formW [] 0
          (Payload.json [("guests", Value.str "2")])).store = [] :=
  C1_required_field_missing_rejected envW formW [] 0
    (Payload.json [("guests", Value.str "2")]) fieldName
    (by decide) (by decide) (by decide) (by decide)

/-- C2 counterexample: a multipart payload carrying a file but missing the
required `name` field is rejected with RequiredFieldMissing, yet the file
upload was already performed — the error is not surfaced before any
attachment upload, contrary to the claim. -/
theorem C2_upload_before_validation_counterexample :
    (submit_form envW formW [] 0
        (Payload.multipart [Part.file "resume" "cv.pdf"])).result
      = SubmitResult.requiredFieldMissing "Missing required field: Name" ∧
    (submit_form envW formW [] 0
        (Payload.multipart [Part.file "resume" "cv.pdf"])).uploads
      = [("resume", "cv.pdf")] := by
  constructor <;> rfl

/-- C2 amended: a RequiredFieldMissing rejection is surfaced before any
persistence and before any mirror append — the store is unchanged and no
row reaches the tabular sink — but attachment uploads are performed while
the multipart payload is being normalized, before validation runs, so the
order is: normalize (uploading files as they are met), validate, commit,
mirror. -/
theorem C2_order_amended (env : Env) (form : FormModel)
    (store : List Submission) (clock : Nat) (payload : Payload) (d : String)
    (h : (submit_form env form store clock payload).result
        = SubmitResult.requiredFieldMissing d) :
    (submit_form env form store clock payload).store = store ∧
    (submit_form env form store clock payload).row = none ∧
    (submit_form env form store clock payload).uploads
      = (normalizePayload env payload).uploads := by
  cases hv : validate_required form.fields (normalizePayload env payload).data with
  | none =>
      rw [submit_form_valid env form store clock payload hv] at h
      simp at h
  | some d0 =>
      rw [submit_form_invalid env form store clock payload d0 hv]
      exact ⟨rfl, rfl, rfl⟩

/-- C2 amended witness: the rejected RSVP submission leaves the store
empty, appends no row, and its upload trace is the normalizer's. -/
theorem C2_order_amended_witness :
    (submit_form envW formW [] 0
        (Payload.multipart [Part.file "resume" "cv.pdf"])).store = [] ∧
    (submit_form envW formW [] 0
        (Payload.multipart [Part.file "resume" "cv.pdf"])).row = none ∧
    (submit_form envW formW [] 0
        (Payload.multipart [Part.file "resume" "cv.pdf"])).uploads
      = (normalizePayload envW
          (Payload.multipart [Part.file "resume" "cv.pdf"])).uploads :=
  C2_order_amended envW formW [] 0
    (Payload.multipart [Part.file "resume" "cv.pdf"])
    "Missing required field: Name" (by rfl)

/-- C3: when the tabular-sink append fails, a validated submission still
returns success with the fresh submission identifier, the committed
Submission record is in the store, and no row reaches the sink — the
mirror error never propagates and never rolls back the Submission. -/
theorem C3_mirror_failure_isolated (env : Env) (form : FormModel)
    (store : List Submission) (clock : Nat) (payload : Payload)
    (hmirror : env.mirrorOk = false)
    (hvalid : validate_required form.fields
        (normalizePayload env payload).data = none) :
    ∃ sub : Submission,
      (submit_form env form store clock payload).result
        = SubmitResult.ok sub.sub_id ∧
      (submit_form env form store clock payload).store = store ++ [sub] ∧
      sub ∈ (submit_form env form store clock payload).store ∧
      (submit_form env form store clock payload).row = none := by
  rw [submit_form_valid env form store clock payload hvalid]
  refine ⟨_, rfl, rfl, ?_, ?_⟩
  · simp
  · rw [hmirror]
    simp

/-- C3 witness: with a failing sink, submitting a valid RSVP payload
still succeeds and commits the record. -/
theorem C3_mirror_failure_isolated_witness :
    ∃ sub : Submission,
      (submit_form ⟨envW.uploadLink, false, envW.now⟩ formW [] 0
          (Payload.json [("name", Value.str "Ana")])).result
        = SubmitResult.ok sub.sub_id ∧
      (submit_form ⟨envW.uploadLink, false, envW.now⟩ formW [] 0
          (Payload.json [("name", Value.str "Ana")])).store = [] ++ [sub] ∧
      sub ∈ (submit_form ⟨envW.uploadLink, false, envW.now⟩ formW [] 0
          (Payload.json [("name", Value.str "Ana")])).store ∧
      (submit_form ⟨envW.uploadLink, false, envW.now⟩ formW [] 0
          (Payload.json [("name", Value.str "Ana")])).row = none :=
  C3_mirror_failure_isolated ⟨envW.uploadLink, false, envW.now⟩ formW [] 0
    (Payload.json [("name", Value.str "Ana")]) rfl (by decide)

/-- C4: plain-text multipart entries fold into the attribute map in
arrival order — an unseen key stores the scalar, a scalar key becomes a
two-element sequence, a sequence key is appended to — and in particular
three entries under `colors` with values red, green, blue produce the map
entry colors -> [red, green, blue] in arrival order. -/
theorem C4_multi_value_folding (env : Env) (st : NormState) (k v : String) :
    (dget st.data k = none →
      (normStep env st (Part.text k v)).data
        = st.data ++ [(k, Value.str v)]) ∧
    (∀ s, dget st.data k = some (Value.str s) →
      (normStep env st (Part.text k v)).data
        = dset st.data k (Value.vlist [s, v])) ∧
    (∀ l, dget st.data k = some (Value.vlist l) →
      (normStep env st (Part.text k v)).data
        = dset st.data k (Value.vlist (l ++ [v]))) ∧
    (normalizeMultipart env
        [Part.text "colors" "red", Part.text "colors" "green",
          Part.text "colors" "blue"]).data
      = [("colors", Value.vlist ["red", "green", "blue"])] := by
  refine ⟨?_, ?_, ?_, rfl⟩
  · intro h
    simp [normStep, h]
  · intro s h
    simp [normStep, h]
  · intro l h
    simp [normStep, h]

/-- C4 witness: the three folding cases at concrete states, plus the
colors example itself. -/
theorem C4_multi_value_folding_witness :
    ((normStep envW ⟨[], [], []⟩ (Part.text "colors" "red")).data
        = [] ++ [("colors", Value.str "red")]) ∧
    ((normStep envW ⟨[("colors", Value.str "red")], [], []⟩
        (Part.text "colors" "green")).data
        = dset [("colors", Value.str "red")] "colors"
            (Value.vlist ["red", "green"])) ∧
    ((normStep envW ⟨[("colors", Value.vlist ["red", "green"])], [], []⟩
        (Part.text "colors" "blue")).data
        = dset [("colors", Value.vlist ["red", "green"])] "colors"
            (Value.vlist (["red", "green"] ++ ["blue"]))) ∧
    (normalizeMultipart envW
        [Part.text "colors" "red", Part.text "colors" "green",
          Part.text "colors" "blue"]).data
      = [("colors", Value.vlist ["red", "green", "blue"])] :=
  ⟨(C4_multi_value_folding envW ⟨[], [], []⟩ "colors" "red").1 (by rfl),
    (C4_multi_value_folding envW ⟨[("colors", Value.str "red")], [], []⟩
      "colors" "green").2.1 "red" (by rfl),
    (C4_multi_value_folding envW
      ⟨[("colors", Value.vlist ["red", "green"])], [], []⟩
      "colors" "blue").2.2.1 ["red", "green"] (by rfl),
    (C4_multi_value_folding envW ⟨[], [], []⟩ "colors" "red").2.2.2⟩

/-- C5 counterexample: for an accepted RSVP submission, the committed
Submission's timestamp is the clock reading at commit, but the row's
first cell is the next, distinct clock reading taken when the mirror
builds the row — the first cell is not the commit timestamp. -/
theorem C5_first_cell_counterexample :
    (submit_form envW formW [] 0
        (Payload.json [("name", Value.str "Ana")])).store
      = [⟨"form1", [("name", Value.str "Ana")], [],
          "2024-01-01T00:00:00", 0⟩] ∧
    (submit_form envW formW [] 0
        (Payload.json [("name", Value.str "Ana")])).row
      = some ["2024-01-01T00:00:01", "Ana", ""] ∧
    ("2024-01-01T00:00:01" : String) ≠ "2024-01-01T00:00:00" := by
  refine ⟨rfl, rfl, by decide⟩

/-- C5 amended: the row appended for a committed Submission has exactly
one cell per field in the Form's declared order after a first cell, each
cell the stringified scalar, comma-joined sequence, or empty when the
field has no entry; but the first cell is an ISO-8601 timestamp taken
when the mirror builds the row, one clock reading after the Submission's
commit timestamp, not the commit timestamp itself. -/
theorem C5_mirror_row_amended (env : Env) (form : FormModel)
    (store : List Submission) (clock : Nat) (payload : Payload)
    (hvalid : validate_required form.fields
        (normalizePayload env payload).data = none)
    (hmirror : env.mirrorOk = true) :
    ∃ sub r,
      (submit_form env form store clock payload).store = store ++ [sub] ∧
      sub.created_at = env.now clock ∧
      (submit_form env form store clock payload).row = some r ∧
      r.length = form.fields.length + 1 ∧
      r.head? = some (env.now (clock + 1)) ∧
      ∀ i f, form.fields.get? i = some f →
        r.get? (i + 1)
          = some (renderCell (dget
              (dmerge (normalizePayload env payload).data
                ((normalizePayload env payload).file_links.map
                  (fun p => (p.1, Value.str p.2)))) f.id)) := by
  rw [submit_form_valid env form store clock payload hvalid]
  refine ⟨_, buildRow (env.now (clock + 1)) form.fields
      (dmerge (normalizePayload env payload).data
        ((normalizePayload env payload).file_links.map
          (fun p => (p.1, Value.str p.2)))),
    rfl, rfl, ?_, ?_, ?_, ?_⟩
  · rw [hmirror]
    simp
  · simp [buildRow]
  · rfl
  · intro i f hf
    rw [show (buildRow (env.now (clock + 1)) form.fields
          (dmerge (normalizePayload env payload).data
            ((normalizePayload env payload).file_links.map
              (fun p => (p.1, Value.str p.2))))).get? (i + 1)
        = (form.fields.map (fun g => renderCell (dget
            (dmerge (normalizePayload env payload).data
              ((normalizePayload env payload).file_links.map
                (fun p => (p.1, Value.str p.2)))) g.id))).get? i from rfl,
      get?_map_eq, hf]
    rfl

/-- C5 amended witness: the accepted RSVP submission at concrete inputs. -/
theorem C5_mirror_row_amended_witness :
    ∃ sub r,
      (submit_form envW formW [] 0
          (Payload.json [("name", Value.str "Ana")])).store = [] ++ [sub] ∧
      sub.created_at = envW.now 0 ∧
      (submit_form envW formW [] 0
          (Payload.json [("name", Value.str "Ana")])).row = some r ∧
      r.length = formW.fields.length + 1 ∧
      r.head? = some (envW.now (0 + 1)) ∧
      ∀ i f, formW.fields.get? i = some f →
        r.get? (i + 1)
          = some (renderCell (dget
              (dmerge (normalizePayload envW
                  (Payload.json [("name", Value.str "Ana")])).data
                ((normalizePayload envW
                  (Payload.json [("name", Value.str "Ana")])).file_links.map
                  (fun p => (p.1, Value.str p.2)))) f.id)) :=
  C5_mirror_row_amended envW formW [] 0
    (Payload.json [("name", Value.str "Ana")]) (by decide) rfl

/-- C6 counterexample: a multipart payload carrying both a text entry and
a file entry under `resume` yields a Submission whose file-reference map
has the upload URL under `resume` but whose attribute map ALSO has a
`resume` entry — contradicting the claim that the attribute map contains
no entry for that identifier. -/
theorem C6_attr_map_entry_counterexample :
    ((submit_form envW formOpt [] 0
        (Payload.multipart
          [Part.text "resume" "hello", Part.file "resume" "cv.pdf"])).store.map
      (fun sub => dget sub.data "resume")) = [some (Value.str "hello")] ∧
    ((submit_form envW formOpt [] 0
        (Payload.multipart
          [Part.text "resume" "hello", Part.file "resume" "cv.pdf"])).store.map
      (fun sub => dget sub.file_links "resume"))
      = [some "https://drive.example/resume/cv.pdf"] := by
  constructor <;> rfl

/-- C6 amended: for an accepted multipart submission containing a file
entry with a non-empty filename under key `k`, the resulting Submission's
file-reference map holds the collaborator-returned URL under `k` — a
non-empty string whenever the blob-storage collaborator returns non-empty
links — and the attribute map has no entry for `k` provided no plain-text
entry of the payload shares that key (a text entry under the same key
would be folded into the attribute map). -/
theorem C6_file_routing_amended (env : Env) (form : FormModel)
    (store : List Submission) (clock : Nat) (parts : List Part)
    (k fn : String)
    (hfn : fn ≠ "") (hfile : Part.file k fn ∈ parts)
    (hnotext : ∀ v, Part.text k v ∉ parts)
    (hup : ∀ k0 fn0, env.uploadLink k0 fn0 ≠ "")
    (hvalid : validate_required form.fields
        (normalizePayload env (Payload.multipart parts)).data = none) :
    ∃ sub url,
      (submit_form env form store clock (Payload.multipart parts)).store
        = store ++ [sub] ∧
      dget sub.file_links k = some url ∧ url ≠ "" ∧
      dget sub.data k = none := by
  have hmem : k ∈ dkeys
      (normalizePayload env (Payload.multipart parts)).file_links :=
    (foldl_normStep_links_keys env parts ⟨[], [], []⟩ k).mpr
      (Or.inr ⟨fn, hfn, hfile⟩)
  rcases Option.isSome_iff_exists.mp ((dget_isSome_iff _ _).mpr hmem)
    with ⟨url, hurl⟩
  have hne : url ≠ "" := by
    rcases foldl_normStep_links_value env parts ⟨[], [], []⟩ k url hurl
      with h2 | ⟨fn0, hfn0, hmem0, hu⟩
    · simp [dget] at h2
    · rw [hu]
      exact hup k fn0
  have hdata : dget (normalizePayload env (Payload.multipart parts)).data k
      = none := by
    rw [dget_eq_none_iff]
    intro hk
    rcases (foldl_normStep_data_keys env parts ⟨[], [], []⟩ k).mp hk
      with h2 | ⟨v, hv⟩
    · simp [dkeys] at h2
    · exact hnotext v hv
  rw [submit_form_valid env form store clock (Payload.multipart parts) hvalid]
  exact ⟨_, url, rfl, hurl, hne, hdata⟩

/-- A collaborator environment whose blob-storage links are a constant
non-empty string. -/
def envU : Env := ⟨fun _ _ => "u", true, fun i => toString i⟩

/-- C6 amended witness: a resume file uploaded alone ends up in the
file-reference map with a non-empty link and leaves no attribute-map
entry. -/
theorem C6_file_routing_amended_witness :
    ∃ sub url,
      (submit_form envU formOpt [] 0
          (Payload.multipart [Part.file "resume" "cv.pdf"])).store
        = [] ++ [sub] ∧
      dget sub.file_links "resume" = some url ∧ url ≠ "" ∧
      dget sub.data "resume" = none :=
  C6_file_routing_amended envU formOpt [] 0 [Part.file "resume" "cv.pdf"]
    "resume" "cv.pdf" (by decide) (by decide)
    (by intro v hv; simp at hv)
    (by
      intro k0 fn0
      show ("u" : String) ≠ ""
      decide)
    (by decide)

/-- C7: validation accepts any submission whose attribute map has a
non-falsy entry for each required field, for every form whatever its
declared field types; moreover the outcome is unchanged under any
reassignment of the declared types (same identifiers, labels and required
flags), so no type-format check is enforced server-side. -/
theorem C7_no_type_format_checks (env : Env) (form : FormModel)
    (store : List Submission) (clock : Nat) (payload : Payload)
    (h : ∀ f ∈ form.fields, f.required = true →
        isFalsy (dget (normalizePayload env payload).data f.id) = false) :
    (submit_form env form store clock payload).result
      = SubmitResult.ok store.length ∧
    (∃ sub, (submit_form env form store clock payload).store
      = store ++ [sub]) ∧
    ∀ form' : FormModel,
      form'.fields.map (fun f => (f.id, f.label, f.required))
        = form.fields.map (fun f => (f.id, f.label, f.required)) →
      (submit_form env form' store clock payload).result
        = SubmitResult.ok store.length := by
  have hv := validate_required_eq_none h
  refine ⟨?_, ?_, ?_⟩
  · rw [submit_form_valid env form store clock payload hv]
  · rw [submit_form_valid env form store clock payload hv]
    exact ⟨_, rfl⟩
  · intro form' hmap
    have h' : ∀ f' ∈ form'.fields, f'.required = true →
        isFalsy (dget (normalizePayload env payload).data f'.id) = false := by
      intro f' hf' hreq
      have hm : (f'.id, f'.label, f'.required)
          ∈ form.fields.map (fun f => (f.id, f.label, f.required)) := by
        rw [← hmap]
        exact List.mem_map_of_mem _ hf'
      rcases List.mem_map.mp hm with ⟨f, hf, he⟩
      have hid : f.id = f'.id := congrArg (fun t => t.1) he
      have hrq : f.required = f'.required := congrArg (fun t => t.2.2) he
      rw [← hid]
      exact h f hf (by rw [hrq, hreq])
    rw [submit_form_valid env form' store clock payload
      (validate_required_eq_none h')]

/-- C7 witness: an email-typed and a number-typed field accept arbitrary
strings; retyping the fields changes nothing. -/
theorem C7_no_type_format_checks_witness :
    (submit_form envW
        ⟨"form3", [⟨"mail", "email", some "Mail", true⟩], "S3"⟩ [] 0
        (Payload.json [("mail", Value.str "not-an-email")])).result
      = SubmitResult.ok 0 ∧
    (∃ sub, (submit_form envW
        ⟨"form3", [⟨"mail", "email", some "Mail", true⟩], "S3"⟩ [] 0
        (Payload.json [("mail", Value.str "not-an-email")])).store
      = [] ++ [sub]) ∧
    ∀ form' : FormModel,
      form'.fields.map (fun f => (f.id, f.label, f.required))
        = (FormModel.mk "form3" [⟨"mail", "email", some "Mail", true⟩]
            "S3").fields.map (fun f => (f.id, f.label, f.required)) →
      (submit_form envW form' [] 0
          (Payload.json [("mail", Value.str "not-an-email")])).result
        = SubmitResult.ok 0 :=
  C7_no_type_format_checks envW
    ⟨"form3", [⟨"mail", "email", some "Mail", true⟩], "S3"⟩ [] 0
    (Payload.json [("mail", Value.str "not-an-email")]) (by decide)

/-- C8: for every accepted submission, the stored Submission's attribute
map has exactly the keys of the raw payload's data (JSON) or of its
plain-text entries (multipart): undeclared keys are passed through
unfiltered, and every stored key was present in the raw payload. -/
theorem C8_undeclared_keys_passthrough (env : Env) (form : FormModel)
    (store : List Submission) (clock : Nat) (payload : Payload)
    (hvalid : validate_required form.fields
        (normalizePayload env payload).data = none) :
    ∃ sub, (submit_form env form store clock payload).store
        = store ++ [sub] ∧
      ∀ k, k ∈ dkeys sub.data ↔ k ∈ payloadKeys payload := by
  rw [submit_form_valid env form store clock payload hvalid]
  refine ⟨_, rfl, ?_⟩
  intro k
  cases payload with
  | json d => exact Iff.rfl
  | multipart parts =>
      have h1 : k ∈ dkeys
          (normalizePayload env (Payload.multipart parts)).data
          ↔ ∃ v, Part.text k v ∈ parts := by
        rw [show (normalizePayload env (Payload.multipart parts)).data
            = (parts.foldl (normStep env) ⟨[], [], []⟩).data from rfl,
          foldl_normStep_data_keys]
        simp [dkeys]
      have h2 : k ∈ payloadKeys (Payload.multipart parts)
          ↔ ∃ v, Part.text k v ∈ parts := by
        simp only [payloadKeys, List.mem_filterMap]
        constructor
        · rintro ⟨p, hp, he⟩
          cases p with
          | text k0 v =>
              simp at he
              exact ⟨v, by rw [he] at hp; exact hp⟩
          | file k0 fn => simp at he
        · rintro ⟨v, hv⟩
          exact ⟨Part.text k v, hv, rfl⟩
      exact h1.trans h2.symm

/-- C8 witness: an undeclared key submitted to the RSVP form is stored. -/
theorem C8_undeclared_keys_passthrough_witness :
    ∃ sub, (submit_form envW formW [] 0
        (Payload.json [("name", Value.str "Ana"),
          ("extra", Value.str "x")])).store = [] ++ [sub] ∧
      ∀ k, k ∈ dkeys sub.data ↔
        k ∈ payloadKeys (Payload.json [("name", Value.str "Ana"),
          ("extra", Value.str "x")]) :=
  C8_undeclared_keys_passthrough envW formW [] 0
    (Payload.json [("name", Value.str "Ana"), ("extra", Value.str "x")])
    (by decide)

/-- C9: the required-field check reads only the attribute map and never
the file-reference map: a required field whose value arrives only as a
file attachment (so it sits in the file-reference map, not the attribute
map) leaves the submission rejected as missing that required field, with
no Submission record created. -/
theorem C9_required_ignores_file_links (env : Env) (form : FormModel)
    (store : List Submission) (clock : Nat) (parts : List Part)
    (f : FormField)
    (hnd : (form.fields.map FormField.id).Nodup)
    (hf : f ∈ form.fields) (hreq : f.required = true)
    (hnotext : ∀ v, Part.text f.id v ∉ parts)
    (fn : String) (hfn : fn ≠ "") (hfile : Part.file f.id fn ∈ parts) :
    dget (normalizePayload env (Payload.multipart parts)).data f.id
      = none ∧
    (∃ url, dget (normalizePayload env
        (Payload.multipart parts)).file_links f.id = some url) ∧
    (∃ g, g ∈ form.fields ∧ g.required = true ∧
      (submit_form env form store clock (Payload.multipart parts)).result
        = SubmitResult.requiredFieldMissing
            ("Missing required field: " ++ labelOrId g.label g.id)) ∧
    (submit_form env form store clock (Payload.multipart parts)).store
      = store := by
  have hdata : dget (normalizePayload env
      (Payload.multipart parts)).data f.id = none := by
    rw [dget_eq_none_iff]
    intro hk
    rcases (foldl_normStep_data_keys env parts ⟨[], [], []⟩ f.id).mp hk
      with h2 | ⟨v, hv⟩
    · simp [dkeys] at h2
    · exact hnotext v hv
  have hmiss : isFalsy (dget (normalizePayload env
      (Payload.multipart parts)).data f.id) = true := by
    rw [hdata]
    rfl
  rcases validate_required_rejects hnd hf hreq hmiss with ⟨g, hg, h1, h2, h3⟩
  refine ⟨hdata, ?_, ⟨g, hg, h1, ?_⟩, ?_⟩
  · have hmem : f.id ∈ dkeys (normalizePayload env
        (Payload.multipart parts)).file_links :=
      (foldl_normStep_links_keys env parts ⟨[], [], []⟩ f.id).mpr
        (Or.inr ⟨fn, hfn, hfile⟩)
    exact Option.isSome_iff_exists.mp ((dget_isSome_iff _ _).mpr hmem)
  · rw [submit_form_invalid env form store clock
      (Payload.multipart parts) _ h3]
  · rw [submit_form_invalid env form store clock
      (Payload.multipart parts) _ h3]

/-- C9 witness: the required `name` field of the RSVP form arriving only
as a file attachment is rejected as missing. -/
theorem C9_required_ignores_file_links_witness :
    dget (normalizePayload envW
        (Payload.multipart [Part.file "name" "sig.png"])).data "name"
      = none ∧
    (∃ url, dget (normalizePayload envW
        (Payload.multipart [Part.file "name" "sig.png"])).file_links "name"
      = some url) ∧
    (∃ g, g ∈ formW.fields ∧ g.required = true ∧
      (submit_form envW formW [] 0
          (Payload.multipart [Part.file "name" "sig.png"])).result
        = SubmitResult.requiredFieldMissing
            ("Missing required field: " ++ labelOrId g.label g.id)) ∧
    (submit_form envW formW [] 0
        (Payload.multipart [Part.file "name" "sig.png"])).store = [] :=
  C9_required_ignores_file_links envW formW [] 0
    [Part.file "name" "sig.png"] fieldName (by decide) (by decide) rfl
    (by intro v hv; simp at hv) "sig.png" (by decide) (by decide)

/-- C10 counterexample: a payload with a text entry and an empty-filename
file entry under the same key `doc` attempts no upload, yet `doc` does
appear in the stored attribute map — contradicting the claim that the
entry's key appears in neither map of the resulting Submission. -/
theorem C10_empty_filename_counterexample :
    (normalizePayload envW (Payload.multipart
        [Part.text "doc" "v", Part.file "doc" ""])).uploads = [] ∧
    ((submit_form envW formOpt [] 0 (Payload.multipart
        [Part.text "doc" "v", Part.file "doc" ""])).store.map
      (fun sub => dget sub.data "doc")) = [some (Value.str "v")] := by
  constructor <;> rfl

/-- C10 amended: a file entry with an empty filename leaves the
normalizer state completely unchanged — no upload is attempted for it and
it contributes nothing to either map — and its key appears in neither the
attribute map nor the file-reference map provided no other entry of the
payload introduces that key. -/
theorem C10_empty_filename_dropped_amended (env : Env) (st : NormState)
    (k : String) (parts : List Part)
    (hnotext : ∀ v, Part.text k v ∉ parts)
    (hnofile : ∀ fn, fn ≠ "" → Part.file k fn ∉ parts) :
    normStep env st (Part.file k "") = st ∧
    dget (normalizePayload env (Payload.multipart parts)).data k = none ∧
    dget (normalizePayload env (Payload.multipart parts)).file_links k
      = none := by
  refine ⟨rfl, ?_, ?_⟩
  · rw [dget_eq_none_iff]
    intro hk
    rcases (foldl_normStep_data_keys env parts ⟨[], [], []⟩ k).mp hk
      with h2 | ⟨v, hv⟩
    · simp [dkeys] at h2
    · exact hnotext v hv
  · rw [dget_eq_none_iff]
    intro hk
    rcases (foldl_normStep_links_keys env parts ⟨[], [], []⟩ k).mp hk
      with h2 | ⟨fn, hfn, hv⟩
    · simp [dkeys] at h2
    · exact hnofile fn hfn hv

/-- C10 amended witness: a payload whose only entry under `doc` is an
empty-filename file leaves `doc` in neither map. -/
theorem C10_empty_filename_dropped_amended_witness :
    normStep envW ⟨[], [], []⟩ (Part.file "doc" "") = ⟨[], [], []⟩ ∧
    dget (normalizePayload envW (Payload.multipart
        [Part.file "doc" "", Part.text "other" "1"])).data "doc" = none ∧
    dget (normalizePayload envW (Payload.multipart
        [Part.file "doc" "", Part.text "other" "1"])).file_links "doc"
      = none :=
  C10_empty_filename_dropped_amended envW ⟨[], [], []⟩ "doc"
    [Part.file "doc" "", Part.text "other" "1"]
    (by intro v hv; simp at hv)
    (by intro fn hfn hv; simp at hv; exact hfn hv)

end SmartForm
